import Mathlib

/-!
# mgdoc: a file-backed Markdown document server

A shallow embedding of `main.go` (package `main` of chingjun/mgdoc) and the
properties of its request router, frontmatter splitter, template cache and
configuration poller.

Conventions of the embedding:

* Go byte slices are lists of `UInt8`; Go `int` indices are `Int`.
* `time.Time` is a natural number of ticks; `Before` and `After` are the strict
  order on it and the zero value `time.Time{}` is `0`.
* A Go call that can panic returns a `Go` value; a Go `error` is a `GoError`.
* The operating system and the imported libraries (`os`, `io/ioutil`, `path`,
  `goyaml`, `blackfriday`, `html/template`, `net/http`) are not part of the
  program; they are the fields of an environment `Env σ` over an arbitrary
  type `σ` of filesystem states.
-/

set_option autoImplicit false

namespace Mgdoc

/-! ## Go values -/

abbrev Bytes := List UInt8

abbrev Time := Nat

abbrev GoError := String

/-- Result of a Go expression that may panic at run time. -/
inductive Go (α : Type) where
  | ret (a : α)
  | panic (msg : String)
  deriving DecidableEq, Repr

/-- The byte sequence `"\n---"` that `sendMarkdown` searches for. -/
def marker : Bytes := [10, 45, 45, 45]

/-- The byte sequence `"</nav>"` that `markdown` searches for. -/
def navEnd : Bytes := [60, 47, 110, 97, 118, 62]

/-- Worker of `bytes.Index`: `i` is the offset of the remaining suffix. -/
def bytesIndexFrom (sep : Bytes) : Bytes → Nat → Int
  | [], i => if sep = [] then (i : Int) else -1
  | b :: rest, i =>
    if sep.isPrefixOf (b :: rest) then (i : Int) else bytesIndexFrom sep rest (i + 1)

/-- Go `bytes.Index(s, sep)`: index of the first instance of `sep` in `s`, or `-1`. -/
def bytesIndex (s sep : Bytes) : Int := bytesIndexFrom sep s 0

/-- Go slice expression `s[:hi]` with a run-time index; an index outside
`0 ≤ hi ≤ len(s)` panics.  (Go checks `hi` against the capacity; every
non-negative index used by the program is at most the length.) -/
def sliceTo (s : Bytes) (hi : Int) : Go Bytes :=
  if 0 ≤ hi ∧ hi ≤ (s.length : Int) then .ret (s.take hi.toNat)
  else .panic "slice bounds out of range"

/-- Go slice expression `s[lo:]`; an index outside `0 ≤ lo ≤ len(s)` panics. -/
def sliceFrom (s : Bytes) (lo : Int) : Go Bytes :=
  if 0 ≤ lo ∧ lo ≤ (s.length : Int) then .ret (s.drop lo.toNat)
  else .panic "slice bounds out of range"

/-- Go slice expression `s[lo:hi]`; panics unless `0 ≤ lo ≤ hi ≤ len(s)`. -/
def sliceRange (s : Bytes) (lo hi : Int) : Go Bytes :=
  if 0 ≤ lo ∧ lo ≤ hi ∧ hi ≤ (s.length : Int) then .ret ((s.take hi.toNat).drop lo.toNat)
  else .panic "slice bounds out of range"

/-! ## Go maps, YAML values, files and templates -/

/-- Go map index `m[k]` together with its `ok` flag. -/
def mapGet {α : Type} : List (String × α) → String → Option α
  | [], _ => none
  | (k1, v) :: rest, k => if k1 = k then some v else mapGet rest k

/-- Go map assignment `m[k] = v`. -/
def mapSet {α : Type} (m : List (String × α)) (k : String) (v : α) : List (String × α) :=
  (k, v) :: m.filter (fun p => decide (p.1 ≠ k))

/-- A value stored under a key of a YAML mapping (`interface{}` in the source). -/
inductive YamlValue where
  | str (s : String)
  | int (n : Int)
  | bool (b : Bool)
  | null
  deriving DecidableEq, Repr

abbrev YamlMap := List (String × YamlValue)

/-- The checked type assertion `m[k].(string)`: the string and `ok`, or not `ok`. -/
def assertString (m : YamlMap) (k : String) : Option String :=
  match mapGet m k with
  | some (.str s) => some s
  | _ => none

/-- The part of `os.FileInfo` the program reads. -/
structure FileInfo where
  isDir : Bool
  modTime : Time
  deriving DecidableEq, Repr

/-- A `*template.Template`: the address of the compiled object and what was
compiled into it. Two handles are the same object when their addresses agree. -/
structure Template where
  addr : Nat
  code : Bytes
  deriving DecidableEq, Repr

structure templateMapValue where
  template : Template
  mtime : Time
  deriving DecidableEq, Repr

structure PageData where
  Config : YamlMap
  Title : String
  Content : Bytes
  Toc : Bytes
  Page : YamlMap
  SourceLink : String
  EditLink : String
  deriving DecidableEq, Repr

/-- The package-level variables `config`, `configModTime` and `templateMap`,
and the number of template objects allocated so far (the next fresh address). -/
structure Globals where
  config : YamlMap
  configModTime : Time
  templateMap : List (String × templateMapValue)
  allocated : Nat
  deriving DecidableEq, Repr

/-- The part of `*http.Request` the handler reads: the method, `r.URL.Path`,
the pairs of the URL query in order, and the pairs of the parsed form (the
values as bytes) in the order `r.FormValue` looks them up. -/
structure Request where
  method : String
  urlPath : String
  query : List (String × String)
  form : List (String × Bytes)
  deriving DecidableEq, Repr

/-- The operating system and the libraries the program calls, over filesystem
states `σ`.  Calls that change the filesystem return the new state, also when
they fail. -/
structure Env (σ : Type) where
  /-- The call `os.Lstat(name)`. -/
  lstat : σ → String → Except GoError FileInfo
  /-- The call `ioutil.ReadFile(name)`. -/
  readFile : σ → String → Except GoError Bytes
  /-- The call `os.MkdirAll(name, 0755)`. -/
  mkdirAll : σ → String → σ × Option GoError
  /-- The call `ioutil.WriteFile(name, data, 0644)`. -/
  writeFile : σ → String → Bytes → σ × Option GoError
  /-- The call `path.Join(a, b)`. -/
  pathJoin : String → String → String
  /-- The call `path.Dir(p)`. -/
  pathDir : String → String
  /-- The call `goyaml.Unmarshal(data, m)` on an empty map `m`: the contents of
  `m` afterwards and the error. -/
  yamlUnmarshal : Bytes → YamlMap × Option GoError
  /-- The call `blackfriday.Markdown` with the renderer and extensions of `markdown`. -/
  blackfriday : Bytes → Bytes
  /-- The call `template.ParseFiles(filename)`: what it compiled, or the error. -/
  parseFiles : σ → String → Except GoError Bytes
  /-- The call `tmpl.Execute(w, data)` on a non-nil template: the bytes written to
  `w` and the error. -/
  execute : Bytes → PageData → Bytes × Option GoError
  /-- The status code with which the call `http.ServeFile(w, r, name)` answers. -/
  serveFileStatus : σ → Request → String → Nat

/-! ## The program -/

section Program

variable {σ : Type}

/-- Source: `markdown` (lines 18-42). -/
def markdown (env : Env σ) (input : Bytes) : Go (Bytes × Bytes) :=
  let result := env.blackfriday input
  let endIndex := bytesIndex result navEnd
  match sliceRange result 5 endIndex with
  | .panic msg => .panic msg
  | .ret toc =>
    match sliceFrom result (endIndex + 6) with
    | .panic msg => .panic msg
    | .ret content => .ret (content, toc)

/-- Source: `loadConfig` (lines 46-58). -/
def loadConfig (env : Env σ) (fs : σ) (filename : String) : Except GoError YamlMap :=
  match env.readFile fs filename with
  | .error err => .error err
  | .ok configFileContent =>
    match env.yamlUnmarshal configFileContent with
    | (_, some err) => .error err
    | (config, none) => .ok config

/-- Source: `getMtime` (lines 101-108). -/
def getMtime (env : Env σ) (fs : σ) (filename : String) : Except GoError Time :=
  match env.lstat fs filename with
  | .error err => .error err
  | .ok fileInfo => .ok fileInfo.modTime

/-- Source: `checkConfigChange` (lines 60-69). -/
def checkConfigChange (env : Env σ) (fs : σ) (filename : String) (oriModTime : Time) :
    Bool × Time :=
  match getMtime env fs filename with
  | .error _ => (false, 0)
  | .ok mtime => if ¬ (oriModTime < mtime) then (false, 0) else (true, mtime)

/-- Source: the body of the loop of `checkConfLoop` (lines 73-80), one iteration
run against the filesystem state `fs`; the sleep is not modelled. -/
def checkConfLoopBody (env : Env σ) (fs : σ) (filename : String) (g : Globals) : Globals :=
  match checkConfigChange env fs filename g.configModTime with
  | (true, mtime) =>
    match loadConfig env fs filename with
    | .ok conf => { g with config := conf, configModTime := mtime }
    | .error _ => g
  | (false, _) => g

/-- Source: the `else` branch of `getTemplate` (lines 125-133). -/
def compileTemplate (env : Env σ) (fs : σ) (g : Globals) (name filename : String)
    (mtime : Time) : Except GoError Template × Globals :=
  match env.parseFiles fs filename with
  | .error err => (.error err, g)
  | .ok code =>
    let tmpl : Template := { addr := g.allocated, code := code }
    (.ok tmpl, { g with templateMap := mapSet g.templateMap name { template := tmpl, mtime := mtime },
                        allocated := g.allocated + 1 })

/-- Source: `getTemplate` (lines 110-135).  A nil `templateMap` and an empty one
are both the empty list. -/
def getTemplate (env : Env σ) (fs : σ) (g : Globals) (name : String) :
    Except GoError Template × Globals :=
  let filename := "_template/" ++ name ++ ".html"
  match getMtime env fs filename with
  | .error err => (.error err, g)
  | .ok mtime =>
    match mapGet g.templateMap name with
    | some val =>
      if ¬ (val.mtime < mtime) then (.ok val.template, g)
      else compileTemplate env fs g name filename mtime
    | none => compileTemplate env fs g name filename mtime

/-- What a call of `sendMarkdown` did. -/
inductive SendOutcome where
  /-- The file could not be read: the error is returned, nothing was written. -/
  | readFailed (err : GoError)
  /-- The call `tmpl.Execute(w, data)` ran on the template `tmpl`, wrote `written`
  to `w` and returned `err`, which is what `sendMarkdown` returns. -/
  | executed (tmpl : Template) (data : PageData) (written : Bytes) (err : Option GoError)
  /-- The call panicked: it returned nothing to its caller. -/
  | panicked (msg : String)
  deriving DecidableEq, Repr

/-- The `error` a call of `sendMarkdown` returned to its caller (`none` is
`nil`), when it returned at all. -/
def SendOutcome.returned : SendOutcome → Option (Option GoError)
  | .readFailed err => some (some err)
  | .executed _ _ _ err => some err
  | .panicked _ => none

/-- Source: `sendMarkdown` (lines 137-182).  The error of `getTemplate` is
overwritten unread (lines 174-175), so a failed `getTemplate` leaves `tmpl`
nil and `Execute` dereferences it. -/
def sendMarkdown (env : Env σ) (fs : σ) (g : Globals) (url filename : String) :
    SendOutcome × Globals :=
  match env.readFile fs filename with
  | .error err => (.readFailed err, g)
  | .ok filecontent =>
    let yamlEndIndex := bytesIndex filecontent marker
    match sliceTo filecontent yamlEndIndex with
    | .panic msg => (.panicked msg, g)
    | .ret yamlcontent =>
      let yaml := (env.yamlUnmarshal yamlcontent).1
      let title := (assertString yaml "Title").getD ""
      let templateFile := (assertString yaml "Template").getD "default"
      match sliceFrom filecontent (yamlEndIndex + 4) with
      | .panic msg => (.panicked msg, g)
      | .ret mdcontent =>
        match markdown env mdcontent with
        | .panic msg => (.panicked msg, g)
        | .ret (content, toc) =>
          let data : PageData :=
            { Config := g.config, Title := title, Content := content, Toc := toc,
              Page := yaml, SourceLink := url ++ ".md", EditLink := "?edit=1" }
          match getTemplate env fs g templateFile with
          | (.error _, g1) => (.panicked "invalid memory address or nil pointer dereference", g1)
          | (.ok tmpl, g1) =>
            let (written, err) := env.execute tmpl.code data
            (.executed tmpl data written err, g1)

/-- Go `url.Values.Get`: the first value of the key, or `""`. -/
def valuesGet (vs : List (String × String)) (key : String) : String :=
  (mapGet vs key).getD ""

/-- Go `[]byte(r.FormValue(key))`: the bytes of the first value of the key, or
of `""`. -/
def formValue (vs : List (String × Bytes)) (key : String) : Bytes :=
  (mapGet vs key).getD []

/-- The bytes of the string `"1"`, written on a successful save. -/
def successToken : Bytes := [49]

/-- What the handler did with the response writer `w`. -/
inductive Reply where
  /-- The call `http.Error(w, msg, code)`. -/
  | httpError (msg : String) (code : Nat)
  /-- The call `w.Write(body)` on a fresh response. -/
  | wrote (body : Bytes)
  /-- The call `http.ServeFile(w, r, name)`. -/
  | serveFile (name : String)
  /-- Nothing was done with `w`: a successful response with an empty body. -/
  | nothing
  /-- The call `sendMarkdown(w, url, filename)` and what it did. -/
  | sendMarkdown (url filename : String) (outcome : SendOutcome)
  deriving DecidableEq, Repr

/-- The status code of the response to the request `r`, when one is sent.
`http.Error` sends its code; `w.Write` and a handler that returns without
touching `w` send 200; `http.ServeFile` chooses its own status; a handler that
panics before anything was written sends no response. -/
def responseStatus (env : Env σ) (fs : σ) (r : Request) : Reply → Option Nat
  | .httpError _ code => some code
  | .wrote _ => some 200
  | .serveFile name => some (env.serveFileStatus fs r name)
  | .nothing => some 200
  | .sendMarkdown _ _ (.panicked _) => none
  | .sendMarkdown _ _ _ => some 200

/-- The local variables of `handler` set by lines 188-216. -/
structure Resolution where
  isDir : Bool
  isRaw : Bool
  isMarkdown : Bool
  found : Bool
  filepath : String
  mtime : Time
  deriving DecidableEq, Repr

/-- Source: `handler`, lines 195-216: the two `os.Lstat` calls and the flags
they set, when neither `isEdit` nor `isPost` holds. -/
def resolve (env : Env σ) (fs : σ) (docpath mdpath : String) : Resolution :=
  let r0 : Resolution :=
    { isDir := false, isRaw := false, isMarkdown := false, found := false,
      filepath := docpath, mtime := 0 }
  let r1 : Resolution :=
    match env.lstat fs docpath with
    | .ok fileInfo =>
      if fileInfo.isDir then { r0 with found := true, isDir := true }
      else { r0 with found := true, isDir := false, isRaw := true }
    | .error _ => r0
  match env.lstat fs mdpath with
  | .ok fileInfo =>
    if fileInfo.isDir == false && !r1.isRaw then
      { r1 with found := true, isDir := false, isMarkdown := true, filepath := mdpath,
                mtime := fileInfo.modTime }
    else r1
  | .error _ => r1

/-- Source: `handler` (lines 184-255): the reply, the filesystem and the
package-level variables after the request. -/
def handler (env : Env σ) (fs : σ) (g : Globals) (r : Request) : Reply × σ × Globals :=
  let docpath := env.pathJoin "_doc" r.urlPath
  let mdpath := docpath ++ ".md"
  let isEdit := decide (valuesGet r.query "edit" = "1")
  let isPost := decide (valuesGet r.query "post" = "1") && decide (r.method = "POST")
  let res : Resolution :=
    if !isEdit && !isPost then resolve env fs docpath mdpath
    else { isDir := false, isRaw := false, isMarkdown := false, found := false,
           filepath := docpath, mtime := 0 }
  if isPost then
    match env.mkdirAll fs (env.pathDir mdpath) with
    | (fs1, some _) => (.httpError "Internal error" 500, fs1, g)
    | (fs1, none) =>
      match env.writeFile fs1 mdpath (formValue r.form "content") with
      | (fs2, some _) => (.httpError "Internal error" 500, fs2, g)
      | (fs2, none) => (.wrote successToken, fs2, g)
  else if isEdit then (.serveFile "_template/_edit.html", fs, g)
  else if !res.found then (.httpError "Not found" 404, fs, g)
  else if res.isDir then (.nothing, fs, g)
  else if !res.isMarkdown then (.serveFile res.filepath, fs, g)
  else
    let (outcome, g1) := sendMarkdown env fs g r.urlPath res.filepath
    (.sendMarkdown r.urlPath res.filepath outcome, fs, g1)

end Program

/-! ## A small in-memory environment

A concrete filesystem and concrete stand-ins for the libraries, on which the
program can be run. -/

inductive MemNode where
  | file (content : Bytes) (mtime : Time)
  | dir
  /-- A symbolic link whose target does not exist. -/
  | danglingLink
  deriving DecidableEq, Repr

/-- Filesystem state: the nodes by path. -/
abbrev MemFS := List (String × MemNode)

/-- Everything before the last slash of a path (`"."` when there is none). -/
def memPathDir (p : String) : String :=
  match ((p.toList.reverse.dropWhile (fun c => decide (c ≠ '/'))).drop 1).reverse with
  | [] => "."
  | cs => String.mk cs

/-- Joins a directory and a path; agrees with `path.Join` on clean paths. -/
def memPathJoin (a b : String) : String :=
  match b.toList with
  | '/' :: _ => a ++ b
  | [] => a
  | _ => a ++ "/" ++ b

def memLstat (fs : MemFS) (name : String) : Except GoError FileInfo :=
  match mapGet fs name with
  | some (.file _ mtime) => .ok { isDir := false, modTime := mtime }
  | some .dir => .ok { isDir := true, modTime := 0 }
  | some .danglingLink => .ok { isDir := false, modTime := 0 }
  | none => .error "no such file or directory"

def memReadFile (fs : MemFS) (name : String) : Except GoError Bytes :=
  match mapGet fs name with
  | some (.file content _) => .ok content
  | some .dir => .error "is a directory"
  | some .danglingLink => .error "no such file or directory"
  | none => .error "no such file or directory"

/-- Creates the directory `name` when its parent exists or is the working
directory; fails on a file in the way. -/
def memMkdirAll (fs : MemFS) (name : String) : MemFS × Option GoError :=
  match mapGet fs name with
  | some .dir => (fs, none)
  | some (.file _ _) => (fs, some "not a directory")
  | some .danglingLink => (fs, some "not a directory")
  | none =>
    match mapGet fs (memPathDir name) with
    | some (.file _ _) => (fs, some "not a directory")
    | some .danglingLink => (fs, some "no such file or directory")
    | _ => (mapSet fs name .dir, none)

def memWriteFile (fs : MemFS) (name : String) (data : Bytes) : MemFS × Option GoError :=
  match mapGet fs (memPathDir name) with
  | some .dir =>
    match mapGet fs name with
    | some .dir => (fs, some "is a directory")
    | some (.file _ mtime) => (mapSet fs name (.file data (mtime + 1)), none)
    | some .danglingLink => (mapSet fs name (.file data 0), none)
    | none => (mapSet fs name (.file data 0), none)
  | _ => (fs, some "no such file or directory")

def bytesToString (b : Bytes) : String :=
  String.mk (b.map (fun x => Char.ofNat x.toNat))

/-- One line `key: value` of a flat YAML mapping. -/
def memYamlLine (line : Bytes) : Option (String × YamlValue) :=
  match line.dropWhile (fun x => decide (x ≠ 58)) with
  | 58 :: 32 :: value =>
    some (bytesToString (line.takeWhile (fun x => decide (x ≠ 58))), .str (bytesToString value))
  | _ => none

def splitLines : Bytes → List Bytes
  | [] => [[]]
  | b :: rest =>
    if b = 10 then [] :: splitLines rest
    else
      match splitLines rest with
      | [] => [[b]]
      | l :: ls => (b :: l) :: ls

/-- Parses a flat mapping of strings, one `key: value` per line. -/
def memYamlUnmarshal (data : Bytes) : YamlMap × Option GoError :=
  let lines := (splitLines data).filter (fun l => decide (l ≠ []))
  if lines.all (fun l => (memYamlLine l).isSome) then (lines.filterMap memYamlLine, none)
  else ([], some "yaml: could not find expected ':'")

/-- Renders its input unchanged after an empty table of contents `<nav></nav>`. -/
def memBlackfriday (input : Bytes) : Bytes :=
  [60, 110, 97, 118, 62] ++ navEnd ++ input

/-- Every readable file compiles, except an empty one. -/
def memParseFiles (fs : MemFS) (filename : String) : Except GoError Bytes :=
  match memReadFile fs filename with
  | .error err => .error err
  | .ok [] => .error "template: empty"
  | .ok code => .ok code

/-- Writes the template text followed by the content of the page. -/
def memExecute (code : Bytes) (data : PageData) : Bytes × Option GoError :=
  (code ++ data.Content, none)

/-- Answers 404 when the file cannot be opened and 200 when it can; conditional
requests, ranges and redirects are left out. -/
def memServeFileStatus (fs : MemFS) (_r : Request) (name : String) : Nat :=
  match mapGet fs name with
  | some (.file _ _) => 200
  | some .dir => 200
  | some .danglingLink => 404
  | none => 404

def memEnv : Env MemFS where
  lstat := memLstat
  readFile := memReadFile
  mkdirAll := memMkdirAll
  writeFile := memWriteFile
  pathJoin := memPathJoin
  pathDir := memPathDir
  yamlUnmarshal := memYamlUnmarshal
  blackfriday := memBlackfriday
  parseFiles := memParseFiles
  execute := memExecute
  serveFileStatus := memServeFileStatus

/-- Package-level variables right after start-up with an empty configuration. -/
def g0 : Globals := { config := [], configModTime := 0, templateMap := [], allocated := 0 }

/-- The bytes of `Title: Hi\n---\n# Hello`. -/
def docHello : Bytes :=
  [84, 105, 116, 108, 101, 58, 32, 72, 105, 10, 45, 45, 45, 10, 35, 32, 72, 101, 108, 108, 111]

/-- The bytes of `# Hello`, a document without the marker. -/
def docNoMarker : Bytes := [35, 32, 72, 101, 108, 108, 111]

/-- The bytes of `<h1>`, the text of the default template. -/
def tmplDefault : Bytes := [60, 104, 49, 62]

/-- A filesystem with one Markdown document and the default template. -/
def fsHello : MemFS :=
  [("_doc", .dir), ("_doc/notes", .dir), ("_doc/notes/hello.md", .file docHello 3),
   ("_template", .dir), ("_template/default.html", .file tmplDefault 2)]

/-- The filesystem `fsHello` with a document without the marker added. -/
def fsNoMarker : MemFS := ("_doc/plain.md", .file docNoMarker 4) :: fsHello

/-- A filesystem with the Markdown document but no template at all. -/
def fsNoTemplate : MemFS :=
  [("_doc", .dir), ("_doc/notes", .dir), ("_doc/notes/hello.md", .file docHello 3)]

/-- A filesystem where both the raw file `_doc/about` and `_doc/about.md` exist. -/
def fsAbout : MemFS :=
  [("_doc", .dir), ("_doc/about", .file docNoMarker 1), ("_doc/about.md", .file docHello 2),
   ("_template", .dir), ("_template/default.html", .file tmplDefault 2)]

/-- The filesystem `fsHello` with a regular file `_doc/notes.md` next to the
directory `_doc/notes`. -/
def fsDirAndMd : MemFS := ("_doc/notes.md", .file docHello 5) :: fsHello

/-- The filesystem `fsHello` with a dangling symbolic link `_doc/ghost`. -/
def fsDangling : MemFS := ("_doc/ghost", .danglingLink) :: fsHello

/-- A document root with nothing in it. -/
def fsEmptyRoot : MemFS := [("_doc", .dir)]

/-- A plain `GET` request for a path. -/
def reqGet (urlPath : String) : Request :=
  { method := "GET", urlPath := urlPath, query := [], form := [] }

/-- The bytes of `# Updated`. -/
def contentUpdated : Bytes := [35, 32, 85, 112, 100, 97, 116, 101, 100]

/-- The request `POST /notes/hello?post=1` with form field `content=# Updated`. -/
def reqSave : Request :=
  { method := "POST", urlPath := "/notes/hello", query := [("post", "1")],
    form := [("content", contentUpdated)] }

/-- The request `POST /notes/hello?edit=1&post=1` with form field `content=# Updated`. -/
def reqEditSave : Request :=
  { method := "POST", urlPath := "/notes/hello", query := [("edit", "1"), ("post", "1")],
    form := [("content", contentUpdated)] }

/-- The request `GET /notes/hello?edit=1&post=1`. -/
def reqEditGet : Request :=
  { method := "GET", urlPath := "/notes/hello", query := [("edit", "1"), ("post", "1")],
    form := [] }

/-- Every template handle in the cache was allocated before the next fresh
address.  It holds at start-up and every call of `getTemplate` keeps it. -/
def Globals.handlesAllocated (g : Globals) : Bool :=
  g.templateMap.all (fun p => decide (p.2.template.addr < g.allocated))

/-- The bytes of `<h2>`, an edited text of the default template. -/
def tmplEdited : Bytes := [60, 104, 50, 62]

/-- The filesystem `fsHello` after the default template was edited at time 5. -/
def fsEdited : MemFS := ("_template/default.html", .file tmplEdited 5) :: fsHello

/-- The package-level variables after `getTemplate "default"` ran on `fsHello`. -/
def g1Hello : Globals :=
  { config := [], configModTime := 0,
    templateMap := [("default", { template := { addr := 0, code := tmplDefault }, mtime := 2 })],
    allocated := 1 }

/-- The package-level variables after a second `getTemplate "default"`, run on
`fsEdited`. -/
def g2Edited : Globals :=
  { config := [], configModTime := 0,
    templateMap := [("default", { template := { addr := 1, code := tmplEdited }, mtime := 5 })],
    allocated := 2 }

/-- The bytes of `a: b`, a valid configuration. -/
def confGood : Bytes := [97, 58, 32, 98]

/-- The bytes of `oops`, which is not a YAML mapping. -/
def confBad : Bytes := [111, 111, 112, 115]

/-- Package-level variables holding a configuration loaded at time 3. -/
def gConf : Globals :=
  { config := [("a", .str "old")], configModTime := 3, templateMap := [], allocated := 0 }

/-- A filesystem whose `config.yaml` was rewritten at time 5 with valid YAML. -/
def fsConfGood : MemFS := [("config.yaml", .file confGood 5)]

/-- A filesystem whose `config.yaml` was rewritten at time 5 with invalid YAML. -/
def fsConfBad : MemFS := [("config.yaml", .file confBad 5)]

/-! ## `bytes.Index` and the slices of the split -/

theorem bytesIndexFrom_spec (sep : Bytes) (s : Bytes) (k : Nat) :
    (bytesIndexFrom sep s k = -1 ∧ ∀ j, ¬ sep <+: s.drop j) ∨
    (∃ i, i ≤ s.length ∧ bytesIndexFrom sep s k = ((k + i : Nat) : Int) ∧
      sep <+: s.drop i ∧ ∀ j, j < i → ¬ sep <+: s.drop j) := by
  induction s generalizing k with
  | nil =>
    by_cases hsep : sep = []
    · right
      exact ⟨0, le_refl _, by simp [bytesIndexFrom, hsep], by simp [hsep], by simp⟩
    · left
      refine ⟨by simp [bytesIndexFrom, hsep], ?_⟩
      intro j hj
      simp only [List.drop_nil, List.prefix_nil] at hj
      exact hsep hj
  | cons b rest ih =>
    by_cases hp : sep.isPrefixOf (b :: rest) = true
    · right
      refine ⟨0, Nat.zero_le _, by simp [bytesIndexFrom, hp], ?_, by simp⟩
      simpa using List.isPrefixOf_iff_prefix.mp hp
    · have hnp : ¬ sep <+: b :: rest := fun h => hp (List.isPrefixOf_iff_prefix.mpr h)
      have hstep : bytesIndexFrom sep (b :: rest) k = bytesIndexFrom sep rest (k + 1) := by
        simp [bytesIndexFrom, hp]
      rcases ih (k + 1) with ⟨hneg, hall⟩ | ⟨i, hi, hidx, hpre, hmin⟩
      · left
        refine ⟨by rw [hstep, hneg], ?_⟩
        intro j
        cases j with
        | zero => simpa using hnp
        | succ j => simpa using hall j
      · right
        refine ⟨i + 1, by simpa using hi, ?_, by simpa using hpre, ?_⟩
        · rw [hstep, hidx]
          congr 1
          omega
        · intro j hj
          cases j with
          | zero => simpa using hnp
          | succ j => simpa using hmin j (by omega)

/-- When `sep` occurs nowhere in `s`, `bytes.Index` returns `-1`. -/
theorem bytesIndex_absent (s sep : Bytes) (h : ¬ sep <:+: s) : bytesIndex s sep = -1 := by
  rcases bytesIndexFrom_spec sep s 0 with ⟨hneg, _⟩ | ⟨i, _, _, hpre, _⟩
  · exact hneg
  · exact absurd ((hpre.isInfix).trans (List.drop_suffix i s).isInfix) h

/-- When `sep` occurs in `s`, `bytes.Index` returns the start of its first
occurrence. -/
theorem bytesIndex_present (s sep : Bytes) (h : sep <:+: s) :
    ∃ i, i ≤ s.length ∧ bytesIndex s sep = (i : Int) ∧ sep <+: s.drop i ∧
      ∀ j, j < i → ¬ sep <+: s.drop j := by
  rcases bytesIndexFrom_spec sep s 0 with ⟨_, hall⟩ | ⟨i, hi, hidx, hpre, hmin⟩
  · obtain ⟨pre, post, hs⟩ := h
    exfalso
    apply hall pre.length
    rw [← hs]
    simp
  · exact ⟨i, hi, by simpa [bytesIndex] using hidx, hpre, hmin⟩

/-- The index and the two slices of the split, for a document that contains
the marker. -/
theorem split_slices (D : Bytes) (h : marker <:+: D) :
    ∃ i : Nat, bytesIndex D marker = (i : Int) ∧
      marker <+: D.drop i ∧ (∀ j, j < i → ¬ marker <+: D.drop j) ∧
      sliceTo D (bytesIndex D marker) = .ret (D.take i) ∧
      sliceFrom D (bytesIndex D marker + 4) = .ret (D.drop (i + 4)) ∧
      D.take i ++ marker ++ D.drop (i + 4) = D := by
  obtain ⟨i, hi, hidx, hpre, hmin⟩ := bytesIndex_present D marker h
  have hlen : i + 4 ≤ D.length := by
    have h1 := hpre.length_le
    simp only [List.length_drop] at h1
    have h4 : marker.length = 4 := rfl
    omega
  refine ⟨i, hidx, hpre, hmin, ?_, ?_, ?_⟩
  · have hc : (0 : Int) ≤ (i : Int) ∧ (i : Int) ≤ (D.length : Int) := by omega
    simp [sliceTo, hidx, hc]
  · have hc : (0 : Int) ≤ (i : Int) + 4 ∧ (i : Int) + 4 ≤ (D.length : Int) := by omega
    have ht : ((i : Int) + 4).toNat = i + 4 := by omega
    simp [sliceFrom, hidx, hc, ht]
  · obtain ⟨t, ht⟩ := hpre
    have hdrop : D.drop (i + 4) = t := by
      have h4 : marker.length = 4 := rfl
      rw [← List.drop_drop, ← ht, ← h4, List.drop_left]
    rw [hdrop, List.append_assoc, ht, List.take_append_drop]

/-- C10: when `sendMarkdown` reads a document `D` that contains the marker, the
index `i` it gets from `bytes.Index` is the start of the first occurrence of
the marker, both of its slice expressions are in range, and metadata
`D[0..i)`, marker and body `D[i+4..)` joined again are `D`.  These two slices
are what `sendMarkdown` goes on with: it unmarshals `D[0..i)` into the page's
metadata, takes title and template name from it, renders `D[i+4..)` with
`markdown`, and executes the template on the page data built from them.  So
whenever it executes a template, the metadata of the page data is the
unmarshalled `D[0..i)` and its content and table of contents are `markdown` of
`D[i+4..)`. -/
theorem sendMarkdown_split_roundtrip {σ : Type} (env : Env σ) (fs : σ) (g : Globals)
    (url filename : String) (D : Bytes) (hread : env.readFile fs filename = .ok D)
    (h : marker <:+: D) :
    ∃ i : Nat, bytesIndex D marker = (i : Int) ∧
      marker <+: D.drop i ∧ (∀ j, j < i → ¬ marker <+: D.drop j) ∧
      sliceTo D (bytesIndex D marker) = .ret (D.take i) ∧
      sliceFrom D (bytesIndex D marker + 4) = .ret (D.drop (i + 4)) ∧
      D.take i ++ marker ++ D.drop (i + 4) = D ∧
      sendMarkdown env fs g url filename =
        (match markdown env (D.drop (i + 4)) with
         | .panic msg => (.panicked msg, g)
         | .ret (content, toc) =>
           match getTemplate env fs g
              ((assertString (env.yamlUnmarshal (D.take i)).1 "Template").getD "default") with
           | (.error _, g1) =>
             (.panicked "invalid memory address or nil pointer dereference", g1)
           | (.ok tmpl, g1) =>
             (.executed tmpl
                { Config := g.config,
                  Title := (assertString (env.yamlUnmarshal (D.take i)).1 "Title").getD "",
                  Content := content, Toc := toc,
                  Page := (env.yamlUnmarshal (D.take i)).1,
                  SourceLink := url ++ ".md", EditLink := "?edit=1" }
                (env.execute tmpl.code
                  { Config := g.config,
                    Title := (assertString (env.yamlUnmarshal (D.take i)).1 "Title").getD "",
                    Content := content, Toc := toc,
                    Page := (env.yamlUnmarshal (D.take i)).1,
                    SourceLink := url ++ ".md", EditLink := "?edit=1" }).1
                (env.execute tmpl.code
                  { Config := g.config,
                    Title := (assertString (env.yamlUnmarshal (D.take i)).1 "Title").getD "",
                    Content := content, Toc := toc,
                    Page := (env.yamlUnmarshal (D.take i)).1,
                    SourceLink := url ++ ".md", EditLink := "?edit=1" }).2, g1)) ∧
      (∀ tmpl data written err g1,
        sendMarkdown env fs g url filename = (.executed tmpl data written err, g1) →
        data.Page = (env.yamlUnmarshal (D.take i)).1 ∧
        markdown env (D.drop (i + 4)) = .ret (data.Content, data.Toc)) := by
  obtain ⟨i, hidx, hpre, hmin, hto, hfrom, hjoin⟩ := split_slices D h
  have heq : sendMarkdown env fs g url filename =
        (match markdown env (D.drop (i + 4)) with
         | .panic msg => (.panicked msg, g)
         | .ret (content, toc) =>
           match getTemplate env fs g
              ((assertString (env.yamlUnmarshal (D.take i)).1 "Template").getD "default") with
           | (.error _, g1) =>
             (.panicked "invalid memory address or nil pointer dereference", g1)
           | (.ok tmpl, g1) =>
             (.executed tmpl
                { Config := g.config,
                  Title := (assertString (env.yamlUnmarshal (D.take i)).1 "Title").getD "",
                  Content := content, Toc := toc,
                  Page := (env.yamlUnmarshal (D.take i)).1,
                  SourceLink := url ++ ".md", EditLink := "?edit=1" }
                (env.execute tmpl.code
                  { Config := g.config,
                    Title := (assertString (env.yamlUnmarshal (D.take i)).1 "Title").getD "",
                    Content := content, Toc := toc,
                    Page := (env.yamlUnmarshal (D.take i)).1,
                    SourceLink := url ++ ".md", EditLink := "?edit=1" }).1
                (env.execute tmpl.code
                  { Config := g.config,
                    Title := (assertString (env.yamlUnmarshal (D.take i)).1 "Title").getD "",
                    Content := content, Toc := toc,
                    Page := (env.yamlUnmarshal (D.take i)).1,
                    SourceLink := url ++ ".md", EditLink := "?edit=1" }).2, g1)) := by
    unfold sendMarkdown
    simp only [hread, hto, hfrom]
  refine ⟨i, hidx, hpre, hmin, hto, hfrom, hjoin, heq, ?_⟩
  intro tmpl data written err g1 hexec
  rw [heq] at hexec
  cases hm : markdown env (D.drop (i + 4)) with
  | panic msg => simp [hm] at hexec
  | ret p =>
    obtain ⟨content, toc⟩ := p
    simp only [hm] at hexec
    rcases hg : getTemplate env fs g
        ((assertString (env.yamlUnmarshal (D.take i)).1 "Template").getD "default")
      with ⟨_ | tmpl1, g2⟩
    · simp [hg] at hexec
    · simp only [hg, Prod.mk.injEq, SendOutcome.executed.injEq] at hexec
      obtain ⟨⟨-, hdata, -, -⟩, -⟩ := hexec
      subst hdata
      exact ⟨rfl, rfl⟩

theorem sendMarkdown_split_roundtrip_witness :
    (sendMarkdown memEnv fsHello g0 "/notes/hello" "_doc/notes/hello.md").1 =
      .executed { addr := 0, code := tmplDefault }
        { Config := [], Title := "Hi", Content := [10, 35, 32, 72, 101, 108, 108, 111],
          Toc := [], Page := [("Title", .str "Hi")], SourceLink := "/notes/hello.md",
          EditLink := "?edit=1" }
        [60, 104, 49, 62, 10, 35, 32, 72, 101, 108, 108, 111] none ∧
    ∃ i : Nat, bytesIndex docHello marker = (i : Int) ∧
      marker <+: docHello.drop i ∧ (∀ j, j < i → ¬ marker <+: docHello.drop j) ∧
      sliceTo docHello (bytesIndex docHello marker) = .ret (docHello.take i) ∧
      sliceFrom docHello (bytesIndex docHello marker + 4) = .ret (docHello.drop (i + 4)) ∧
      docHello.take i ++ marker ++ docHello.drop (i + 4) = docHello ∧
      sendMarkdown memEnv fsHello g0 "/notes/hello" "_doc/notes/hello.md" =
        (match markdown memEnv (docHello.drop (i + 4)) with
         | .panic msg => (.panicked msg, g0)
         | .ret (content, toc) =>
           match getTemplate memEnv fsHello g0
              ((assertString (memEnv.yamlUnmarshal (docHello.take i)).1 "Template").getD
                "default") with
           | (.error _, g1) =>
             (.panicked "invalid memory address or nil pointer dereference", g1)
           | (.ok tmpl, g1) =>
             (.executed tmpl
                { Config := g0.config,
                  Title :=
                    (assertString (memEnv.yamlUnmarshal (docHello.take i)).1 "Title").getD "",
                  Content := content, Toc := toc,
                  Page := (memEnv.yamlUnmarshal (docHello.take i)).1,
                  SourceLink := "/notes/hello" ++ ".md", EditLink := "?edit=1" }
                (memEnv.execute tmpl.code
                  { Config := g0.config,
                    Title :=
                      (assertString (memEnv.yamlUnmarshal (docHello.take i)).1 "Title").getD "",
                    Content := content, Toc := toc,
                    Page := (memEnv.yamlUnmarshal (docHello.take i)).1,
                    SourceLink := "/notes/hello" ++ ".md", EditLink := "?edit=1" }).1
                (memEnv.execute tmpl.code
                  { Config := g0.config,
                    Title :=
                      (assertString (memEnv.yamlUnmarshal (docHello.take i)).1 "Title").getD "",
                    Content := content, Toc := toc,
                    Page := (memEnv.yamlUnmarshal (docHello.take i)).1,
                    SourceLink := "/notes/hello" ++ ".md", EditLink := "?edit=1" }).2, g1)) ∧
      (∀ tmpl data written err g1,
        sendMarkdown memEnv fsHello g0 "/notes/hello" "_doc/notes/hello.md"
          = (.executed tmpl data written err, g1) →
        data.Page = (memEnv.yamlUnmarshal (docHello.take i)).1 ∧
        markdown memEnv (docHello.drop (i + 4)) = .ret (data.Content, data.Toc)) :=
  ⟨by decide,
   sendMarkdown_split_roundtrip memEnv fsHello g0 "/notes/hello" "_doc/notes/hello.md" docHello
    rfl
    ⟨[84, 105, 116, 108, 101, 58, 32, 72, 105], [10, 35, 32, 72, 101, 108, 108, 111], rfl⟩⟩

/-- Whatever the environment, `sendMarkdown` panics at the slice expression
`filecontent[:yamlEndIndex]` on every readable file without the marker. -/
theorem sendMarkdown_panics_without_marker {σ : Type} (env : Env σ) (fs : σ) (g : Globals)
    (url filename : String) (D : Bytes) (hread : env.readFile fs filename = .ok D)
    (h : ¬ marker <:+: D) :
    sendMarkdown env fs g url filename = (.panicked "slice bounds out of range", g) := by
  have hidx := bytesIndex_absent D marker h
  simp [sendMarkdown, hread, hidx, sliceTo]

/-- C1: on the document `# Hello`, which has no marker, `bytes.Index` returns
`-1`, the slice `filecontent[:-1]` is out of range and `sendMarkdown` panics: it
returns nothing, no page data is built and no template is executed. -/
theorem sendMarkdown_no_marker_panics :
    ¬ marker <:+: docNoMarker ∧
    bytesIndex docNoMarker marker = -1 ∧
    sliceTo docNoMarker (bytesIndex docNoMarker marker) = .panic "slice bounds out of range" ∧
    sendMarkdown memEnv fsNoMarker g0 "/plain" "_doc/plain.md"
      = (.panicked "slice bounds out of range", g0) ∧
    (sendMarkdown memEnv fsNoMarker g0 "/plain" "_doc/plain.md").1.returned = none ∧
    (handler memEnv fsNoMarker g0
        { method := "GET", urlPath := "/plain", query := [], form := [] }).1
      = .sendMarkdown "/plain" "_doc/plain.md" (.panicked "slice bounds out of range") := by
  refine ⟨by decide, by decide, by decide, by decide, by decide, by decide⟩

/-- Whatever the environment, a call of `sendMarkdown` that reads its file and
whose `getTemplate` call fails never returns an error: it panics. -/
theorem sendMarkdown_panics_on_template_error {σ : Type} (env : Env σ) (fs : σ) (g : Globals)
    (url filename : String) (D : Bytes) (hread : env.readFile fs filename = .ok D)
    (hfail : ∀ name, ∃ err, getTemplate env fs g name = (.error err, g)) :
    ∃ msg, sendMarkdown env fs g url filename = (.panicked msg, g) := by
  cases hs : sliceTo D (bytesIndex D marker) with
  | panic msg => exact ⟨msg, by simp [sendMarkdown, hread, hs]⟩
  | ret yamlcontent =>
    cases hb : sliceFrom D (bytesIndex D marker + 4) with
    | panic msg => exact ⟨msg, by simp [sendMarkdown, hread, hs, hb]⟩
    | ret mdcontent =>
      cases hm : markdown env mdcontent with
      | panic msg => exact ⟨msg, by simp [sendMarkdown, hread, hs, hb, hm]⟩
      | ret p =>
        obtain ⟨err, herr⟩ :=
          hfail ((assertString (env.yamlUnmarshal yamlcontent).1 "Template").getD "default")
        exact ⟨"invalid memory address or nil pointer dereference",
          by simp [sendMarkdown, hread, hs, hb, hm, herr]⟩

/-- C9: with the document `Title: Hi\n---\n# Hello` and no template file
`_template/default.html`, `getTemplate "default"` fails with an error, and
`sendMarkdown` does not return that error: it calls `Execute` on the nil
template and panics. -/
theorem sendMarkdown_missing_template_panics :
    getTemplate memEnv fsNoTemplate g0 "default" = (.error "no such file or directory", g0) ∧
    sendMarkdown memEnv fsNoTemplate g0 "/notes/hello" "_doc/notes/hello.md"
      = (.panicked "invalid memory address or nil pointer dereference", g0) ∧
    (sendMarkdown memEnv fsNoTemplate g0 "/notes/hello" "_doc/notes/hello.md").1.returned
      ≠ some (some "no such file or directory") := by
  refine ⟨rfl, by decide, by decide⟩

/-! ## The request router -/

/-- A request with save intent is saved, with or without `edit=1` and without
any `os.Lstat` call: the reply and the filesystem are those of `os.MkdirAll`
followed by `ioutil.WriteFile`. -/
theorem handler_save {σ : Type} (env : Env σ) (fs : σ) (g : Globals) (r : Request)
    (hpost : valuesGet r.query "post" = "1") (hmethod : r.method = "POST") :
    handler env fs g r =
      match env.mkdirAll fs (env.pathDir (env.pathJoin "_doc" r.urlPath ++ ".md")) with
      | (fs1, some _) => (.httpError "Internal error" 500, fs1, g)
      | (fs1, none) =>
        match env.writeFile fs1 (env.pathJoin "_doc" r.urlPath ++ ".md")
            (formValue r.form "content") with
        | (fs2, some _) => (.httpError "Internal error" 500, fs2, g)
        | (fs2, none) => (.wrote successToken, fs2, g) := by
  simp [handler, hpost, hmethod]

/-- A request without edit or save intent is answered from the flags that
`resolve` sets. -/
theorem handler_resolve {σ : Type} (env : Env σ) (fs : σ) (g : Globals) (r : Request)
    (hedit : valuesGet r.query "edit" ≠ "1")
    (hpost : ¬ (valuesGet r.query "post" = "1" ∧ r.method = "POST")) :
    handler env fs g r =
      let res := resolve env fs (env.pathJoin "_doc" r.urlPath)
        (env.pathJoin "_doc" r.urlPath ++ ".md")
      if !res.found then (.httpError "Not found" 404, fs, g)
      else if res.isDir then (.nothing, fs, g)
      else if !res.isMarkdown then (.serveFile res.filepath, fs, g)
      else (.sendMarkdown r.urlPath res.filepath
              (sendMarkdown env fs g r.urlPath res.filepath).1, fs,
            (sendMarkdown env fs g r.urlPath res.filepath).2) := by
  have hp : (decide (valuesGet r.query "post" = "1") && decide (r.method = "POST")) = false := by
    simpa using hpost
  simp [handler, hedit, hp]

/-- C4: a request without `edit=1` and without save intent whose raw path
exists and is not a directory is answered by `http.ServeFile` on the raw path,
whatever `os.Lstat` says about the `.md` path; `sendMarkdown` is not called and
neither the filesystem nor the package-level variables change. -/
theorem handler_raw_file_static {σ : Type} (env : Env σ) (fs : σ) (g : Globals) (r : Request)
    (hedit : valuesGet r.query "edit" ≠ "1")
    (hpost : ¬ (valuesGet r.query "post" = "1" ∧ r.method = "POST"))
    (info : FileInfo) (hstat : env.lstat fs (env.pathJoin "_doc" r.urlPath) = .ok info)
    (hfile : info.isDir = false) :
    handler env fs g r = (.serveFile (env.pathJoin "_doc" r.urlPath), fs, g) := by
  rw [handler_resolve env fs g r hedit hpost]
  cases hmd : env.lstat fs (env.pathJoin "_doc" r.urlPath ++ ".md") <;>
    simp [resolve, hstat, hfile, hmd]

theorem handler_raw_file_static_witness :
    handler memEnv fsAbout g0 (reqGet "/about") = (.serveFile "_doc/about", fsAbout, g0) :=
  handler_raw_file_static memEnv fsAbout g0 (reqGet "/about") (by decide) (by decide)
    { isDir := false, modTime := 1 } rfl rfl

/-- A request handed to `sendMarkdown` is never answered with status 404. -/
theorem responseStatus_sendMarkdown_ne {σ : Type} (env : Env σ) (fs : σ) (r : Request)
    (url filename : String) (outcome : SendOutcome) :
    responseStatus env fs r (.sendMarkdown url filename outcome) ≠ some 404 := by
  cases outcome <;> simp [responseStatus]

/-- C5, as the code has it: for a request without `edit=1` and without save
intent, the handler itself answers not-found (`http.Error` with status 404)
exactly when `os.Lstat` fails on the raw path and, on the `.md` path, fails or
reports a directory.  The status of the response is 404 exactly in that case
or when the raw path exists, is not a directory, and `http.ServeFile`, to which
it is handed, answers 404 itself.  In every case the filesystem is left as it
was, and in the not-found case the package-level variables too. -/
theorem handler_status_404_iff {σ : Type} (env : Env σ) (fs : σ) (g : Globals) (r : Request)
    (hedit : valuesGet r.query "edit" ≠ "1")
    (hpost : ¬ (valuesGet r.query "post" = "1" ∧ r.method = "POST")) :
    ((∃ msg, (handler env fs g r).1 = .httpError msg 404) ↔
      ((∃ err, env.lstat fs (env.pathJoin "_doc" r.urlPath) = .error err) ∧
       ((∃ err, env.lstat fs (env.pathJoin "_doc" r.urlPath ++ ".md") = .error err) ∨
        ∃ info, env.lstat fs (env.pathJoin "_doc" r.urlPath ++ ".md") = .ok info ∧
          info.isDir = true))) ∧
    (responseStatus env fs r (handler env fs g r).1 = some 404 ↔
      (((∃ err, env.lstat fs (env.pathJoin "_doc" r.urlPath) = .error err) ∧
        ((∃ err, env.lstat fs (env.pathJoin "_doc" r.urlPath ++ ".md") = .error err) ∨
         ∃ info, env.lstat fs (env.pathJoin "_doc" r.urlPath ++ ".md") = .ok info ∧
           info.isDir = true)) ∨
       ∃ info, env.lstat fs (env.pathJoin "_doc" r.urlPath) = .ok info ∧ info.isDir = false ∧
         env.serveFileStatus fs r (env.pathJoin "_doc" r.urlPath) = 404)) ∧
    (((∃ err, env.lstat fs (env.pathJoin "_doc" r.urlPath) = .error err) ∧
       ((∃ err, env.lstat fs (env.pathJoin "_doc" r.urlPath ++ ".md") = .error err) ∨
        ∃ info, env.lstat fs (env.pathJoin "_doc" r.urlPath ++ ".md") = .ok info ∧
          info.isDir = true)) →
      handler env fs g r = (.httpError "Not found" 404, fs, g)) ∧
    (handler env fs g r).2.1 = fs := by
  rw [handler_resolve env fs g r hedit hpost]
  have hmdne := responseStatus_sendMarkdown_ne env fs r r.urlPath
  cases hraw : env.lstat fs (env.pathJoin "_doc" r.urlPath) with
  | error e1 =>
    cases hmd : env.lstat fs (env.pathJoin "_doc" r.urlPath ++ ".md") with
    | error e2 => simp [resolve, hraw, hmd, responseStatus]
    | ok mi =>
      cases hd : mi.isDir
      · simp [resolve, hraw, hmd, hd, hmdne]
      · simp [resolve, hraw, hmd, hd, responseStatus]
  | ok ri =>
    cases hrd : ri.isDir <;>
      cases hmd : env.lstat fs (env.pathJoin "_doc" r.urlPath ++ ".md") with
      | error e2 => simp [resolve, hraw, hmd, hrd, responseStatus]
      | ok mi =>
        cases hd : mi.isDir
        · first
          | (simp [resolve, hraw, hmd, hd, hrd, responseStatus]; done)
          | simp [resolve, hraw, hmd, hd, hrd, hmdne]
        · simp [resolve, hraw, hmd, hd, hrd, responseStatus]

theorem handler_status_404_iff_witness :
    handler memEnv fsHello g0 (reqGet "/nowhere") = (.httpError "Not found" 404, fsHello, g0) ∧
    responseStatus memEnv fsHello (reqGet "/nowhere")
      (handler memEnv fsHello g0 (reqGet "/nowhere")).1 = some 404 ∧
    (((∃ msg, (handler memEnv fsHello g0 (reqGet "/nowhere")).1 = .httpError msg 404) ↔
      ((∃ err, memEnv.lstat fsHello (memEnv.pathJoin "_doc" "/nowhere") = .error err) ∧
       ((∃ err, memEnv.lstat fsHello (memEnv.pathJoin "_doc" "/nowhere" ++ ".md")
            = .error err) ∨
        ∃ info, memEnv.lstat fsHello (memEnv.pathJoin "_doc" "/nowhere" ++ ".md") = .ok info ∧
          info.isDir = true))) ∧
    (responseStatus memEnv fsHello (reqGet "/nowhere")
        (handler memEnv fsHello g0 (reqGet "/nowhere")).1 = some 404 ↔
      (((∃ err, memEnv.lstat fsHello (memEnv.pathJoin "_doc" "/nowhere") = .error err) ∧
        ((∃ err, memEnv.lstat fsHello (memEnv.pathJoin "_doc" "/nowhere" ++ ".md")
            = .error err) ∨
         ∃ info, memEnv.lstat fsHello (memEnv.pathJoin "_doc" "/nowhere" ++ ".md") = .ok info ∧
           info.isDir = true)) ∨
       ∃ info, memEnv.lstat fsHello (memEnv.pathJoin "_doc" "/nowhere") = .ok info ∧
         info.isDir = false ∧
         memEnv.serveFileStatus fsHello (reqGet "/nowhere")
           (memEnv.pathJoin "_doc" "/nowhere") = 404)) ∧
    (((∃ err, memEnv.lstat fsHello (memEnv.pathJoin "_doc" "/nowhere") = .error err) ∧
       ((∃ err, memEnv.lstat fsHello (memEnv.pathJoin "_doc" "/nowhere" ++ ".md")
            = .error err) ∨
        ∃ info, memEnv.lstat fsHello (memEnv.pathJoin "_doc" "/nowhere" ++ ".md") = .ok info ∧
          info.isDir = true)) →
      handler memEnv fsHello g0 (reqGet "/nowhere")
        = (.httpError "Not found" 404, fsHello, g0)) ∧
    (handler memEnv fsHello g0 (reqGet "/nowhere")).2.1 = fsHello) :=
  ⟨by decide, by decide,
   handler_status_404_iff memEnv fsHello g0 (reqGet "/nowhere") (by decide) (by decide)⟩

/-- C5 fails as stated: `GET /ghost` has neither `edit=1` nor save intent and
`os.Lstat` succeeds on the raw path `_doc/ghost`, a symbolic link whose target
does not exist, so the handler hands it to `http.ServeFile`; the file cannot be
opened and the response has status 404 although the stat of the raw path did
not fail. -/
theorem handler_unopenable_raw_file_is_404 :
    valuesGet (reqGet "/ghost").query "edit" ≠ "1" ∧
    ¬ (valuesGet (reqGet "/ghost").query "post" = "1" ∧ (reqGet "/ghost").method = "POST") ∧
    memEnv.lstat fsDangling (memEnv.pathJoin "_doc" "/ghost")
      = .ok { isDir := false, modTime := 0 } ∧
    handler memEnv fsDangling g0 (reqGet "/ghost") = (.serveFile "_doc/ghost", fsDangling, g0) ∧
    responseStatus memEnv fsDangling (reqGet "/ghost")
      (handler memEnv fsDangling g0 (reqGet "/ghost")).1 = some 404 ∧
    ¬ (responseStatus memEnv fsDangling (reqGet "/ghost")
        (handler memEnv fsDangling g0 (reqGet "/ghost")).1 = some 404 ↔
      ((∃ err, memEnv.lstat fsDangling (memEnv.pathJoin "_doc" "/ghost") = .error err) ∧
       ((∃ err, memEnv.lstat fsDangling (memEnv.pathJoin "_doc" "/ghost" ++ ".md")
            = .error err) ∨
        ∃ info, memEnv.lstat fsDangling (memEnv.pathJoin "_doc" "/ghost" ++ ".md")
            = .ok info ∧ info.isDir = true))) := by
  have hstat : memEnv.lstat fsDangling (memEnv.pathJoin "_doc" "/ghost")
      = .ok { isDir := false, modTime := 0 } := rfl
  have h404 : responseStatus memEnv fsDangling (reqGet "/ghost")
      (handler memEnv fsDangling g0 (reqGet "/ghost")).1 = some 404 := by decide
  refine ⟨by decide, by decide, hstat, by decide, h404, ?_⟩
  intro hiff
  obtain ⟨⟨err, herr⟩, -⟩ := hiff.mp h404
  rw [hstat] at herr
  exact Except.noConfusion herr

/-- C3, as the code has it: a request without `edit=1` and without save intent
whose raw path is a directory gets the empty successful reply of directory mode
when the `.md` path is not an existing non-directory; when the `.md` path also
exists and is not a directory, the request is handed to `sendMarkdown` on the
`.md` path. -/
theorem handler_directory_mode {σ : Type} (env : Env σ) (fs : σ) (g : Globals) (r : Request)
    (hedit : valuesGet r.query "edit" ≠ "1")
    (hpost : ¬ (valuesGet r.query "post" = "1" ∧ r.method = "POST"))
    (info : FileInfo) (hstat : env.lstat fs (env.pathJoin "_doc" r.urlPath) = .ok info)
    (hdir : info.isDir = true) :
    ((∀ mi, env.lstat fs (env.pathJoin "_doc" r.urlPath ++ ".md") = .ok mi → mi.isDir = true) →
      handler env fs g r = (.nothing, fs, g)) ∧
    (∀ mi, env.lstat fs (env.pathJoin "_doc" r.urlPath ++ ".md") = .ok mi → mi.isDir = false →
      handler env fs g r =
        (.sendMarkdown r.urlPath (env.pathJoin "_doc" r.urlPath ++ ".md")
            (sendMarkdown env fs g r.urlPath (env.pathJoin "_doc" r.urlPath ++ ".md")).1,
          fs, (sendMarkdown env fs g r.urlPath (env.pathJoin "_doc" r.urlPath ++ ".md")).2)) := by
  rw [handler_resolve env fs g r hedit hpost]
  constructor
  · intro hmd
    cases hm : env.lstat fs (env.pathJoin "_doc" r.urlPath ++ ".md") with
    | error e => simp [resolve, hstat, hdir, hm]
    | ok mi => simp [resolve, hstat, hdir, hm, hmd mi hm]
  · intro mi hm hfile
    simp [resolve, hstat, hdir, hm, hfile]

theorem handler_directory_mode_witness :
    handler memEnv fsHello g0 (reqGet "/notes") = (.nothing, fsHello, g0) ∧
    (((∀ mi, memEnv.lstat fsHello (memEnv.pathJoin "_doc" "/notes" ++ ".md") = .ok mi →
        mi.isDir = true) →
      handler memEnv fsHello g0 (reqGet "/notes") = (.nothing, fsHello, g0)) ∧
    (∀ mi, memEnv.lstat fsHello (memEnv.pathJoin "_doc" "/notes" ++ ".md") = .ok mi →
        mi.isDir = false →
      handler memEnv fsHello g0 (reqGet "/notes") =
        (.sendMarkdown "/notes" (memEnv.pathJoin "_doc" "/notes" ++ ".md")
            (sendMarkdown memEnv fsHello g0 "/notes" (memEnv.pathJoin "_doc" "/notes" ++ ".md")).1,
          fsHello,
          (sendMarkdown memEnv fsHello g0 "/notes"
            (memEnv.pathJoin "_doc" "/notes" ++ ".md")).2))) :=
  ⟨by decide,
   handler_directory_mode memEnv fsHello g0 (reqGet "/notes") (by decide) (by decide)
    { isDir := true, modTime := 0 } rfl rfl⟩

/-- C3 fails as stated: `GET /notes` has neither `edit=1` nor save intent and
`_doc/notes` is a directory, but the regular file `_doc/notes.md` exists too and
the handler renders it through `sendMarkdown` instead of replying in directory
mode. -/
theorem handler_directory_with_md_is_markdown :
    valuesGet (reqGet "/notes").query "edit" ≠ "1" ∧
    ¬ (valuesGet (reqGet "/notes").query "post" = "1" ∧ (reqGet "/notes").method = "POST") ∧
    memEnv.lstat fsDirAndMd (memEnv.pathJoin "_doc" "/notes")
      = .ok { isDir := true, modTime := 0 } ∧
    (handler memEnv fsDirAndMd g0 (reqGet "/notes")).1 ≠ .nothing ∧
    ∃ tmpl data written,
      (handler memEnv fsDirAndMd g0 (reqGet "/notes")).1
        = .sendMarkdown "/notes" "_doc/notes.md" (.executed tmpl data written none) := by
  refine ⟨by decide, by decide, rfl, by decide, ?_⟩
  exact ⟨_, _, _, rfl⟩

/-- C2, as the code has it: a request with `edit=1` and without save intent is
answered with the editor resource `_template/_edit.html`, whatever its method,
its other query parameters and the filesystem, and changes neither the
filesystem nor the package-level variables; a request with `edit=1` and save
intent is saved, because the handler tests `isPost` before `isEdit`. -/
theorem handler_edit_mode {σ : Type} (env : Env σ) (fs : σ) (g : Globals) (r : Request)
    (hedit : valuesGet r.query "edit" = "1") :
    (¬ (valuesGet r.query "post" = "1" ∧ r.method = "POST") →
      handler env fs g r = (.serveFile "_template/_edit.html", fs, g)) ∧
    (valuesGet r.query "post" = "1" ∧ r.method = "POST" →
      (handler env fs g r).1 = .wrote successToken ∨
      (handler env fs g r).1 = .httpError "Internal error" 500) := by
  constructor
  · intro hpost
    have hp : (decide (valuesGet r.query "post" = "1") && decide (r.method = "POST")) = false := by
      simpa using hpost
    simp [handler, hedit, hp]
  · rintro ⟨hpost, hmethod⟩
    rw [handler_save env fs g r hpost hmethod]
    rcases hmk : env.mkdirAll fs (env.pathDir (env.pathJoin "_doc" r.urlPath ++ ".md"))
      with ⟨fs1, _ | e1⟩
    · rcases hw : env.writeFile fs1 (env.pathJoin "_doc" r.urlPath ++ ".md")
        (formValue r.form "content") with ⟨fs2, _ | e2⟩
      · left; simp [hw]
      · right; simp [hw]
    · right; simp

theorem handler_edit_mode_witness :
    handler memEnv fsHello g0 reqEditGet = (.serveFile "_template/_edit.html", fsHello, g0) ∧
    ((¬ (valuesGet reqEditGet.query "post" = "1" ∧ reqEditGet.method = "POST") →
      handler memEnv fsHello g0 reqEditGet = (.serveFile "_template/_edit.html", fsHello, g0)) ∧
    (valuesGet reqEditGet.query "post" = "1" ∧ reqEditGet.method = "POST" →
      (handler memEnv fsHello g0 reqEditGet).1 = .wrote successToken ∨
      (handler memEnv fsHello g0 reqEditGet).1 = .httpError "Internal error" 500)) :=
  ⟨by decide, handler_edit_mode memEnv fsHello g0 reqEditGet (by decide)⟩

/-- C2 fails as stated: `POST /notes/hello?edit=1&post=1` has `edit=1`, yet the
handler does not serve the editor: it overwrites `_doc/notes/hello.md` with the
form field `content` and replies `1`. -/
theorem handler_edit_with_save_intent_saves :
    valuesGet reqEditSave.query "edit" = "1" ∧
    (handler memEnv fsHello g0 reqEditSave).1 ≠ .serveFile "_template/_edit.html" ∧
    (handler memEnv fsHello g0 reqEditSave).1 = .wrote successToken ∧
    (handler memEnv fsHello g0 reqEditSave).2.1 ≠ fsHello ∧
    memEnv.readFile fsHello "_doc/notes/hello.md" = .ok docHello ∧
    memEnv.readFile (handler memEnv fsHello g0 reqEditSave).2.1 "_doc/notes/hello.md"
      = .ok contentUpdated := by
  refine ⟨by decide, by decide, by decide, by decide, rfl, rfl⟩

theorem mapGet_mapSet_self {α : Type} (m : List (String × α)) (k : String) (v : α) :
    mapGet (mapSet m k v) k = some v := by
  simp [mapSet, mapGet]

/-- In the in-memory filesystem a file that was written reads back as written. -/
theorem memWriteFile_readFile (fs1 fs2 : MemFS) (name : String) (data : Bytes)
    (h : memWriteFile fs1 name data = (fs2, none)) : memReadFile fs2 name = .ok data := by
  unfold memWriteFile at h
  split at h
  · split at h
    · simp at h
    · simp only [Prod.mk.injEq, and_true] at h
      subst h
      simp [memReadFile, mapGet_mapSet_self]
    · simp only [Prod.mk.injEq, and_true] at h
      subst h
      simp [memReadFile, mapGet_mapSet_self]
    · simp only [Prod.mk.injEq, and_true] at h
      subst h
      simp [memReadFile, mapGet_mapSet_self]
  · simp at h

/-- C6: a request with `post=1`, method `POST` and no `edit=1` is saved without
any `os.Lstat` call.  When `os.MkdirAll` on the parent of `_doc/P.md` and
`ioutil.WriteFile` both succeed, the reply is exactly the byte `1`, the
filesystem is the one `WriteFile` left and, in an environment where a written
file reads back as written, `_doc/P.md` holds exactly the bytes of the form
field `content`.  When either call fails the reply is `http.Error` with status
500 and nothing else is written to the response. -/
theorem handler_save_mode {σ : Type} (env : Env σ) (fs : σ) (g : Globals) (r : Request)
    (hpost : valuesGet r.query "post" = "1") (hmethod : r.method = "POST")
    (_hedit : valuesGet r.query "edit" ≠ "1")
    (hlaw : ∀ fs1 fs2 name data,
      env.writeFile fs1 name data = (fs2, none) → env.readFile fs2 name = .ok data) :
    (∀ fs1 fs2, env.mkdirAll fs (env.pathDir (env.pathJoin "_doc" r.urlPath ++ ".md"))
          = (fs1, none) →
        env.writeFile fs1 (env.pathJoin "_doc" r.urlPath ++ ".md") (formValue r.form "content")
          = (fs2, none) →
        handler env fs g r = (.wrote successToken, fs2, g) ∧
        env.readFile fs2 (env.pathJoin "_doc" r.urlPath ++ ".md")
          = .ok (formValue r.form "content")) ∧
    (∀ fs1 err, env.mkdirAll fs (env.pathDir (env.pathJoin "_doc" r.urlPath ++ ".md"))
          = (fs1, some err) →
        handler env fs g r = (.httpError "Internal error" 500, fs1, g)) ∧
    (∀ fs1 fs2 err, env.mkdirAll fs (env.pathDir (env.pathJoin "_doc" r.urlPath ++ ".md"))
          = (fs1, none) →
        env.writeFile fs1 (env.pathJoin "_doc" r.urlPath ++ ".md") (formValue r.form "content")
          = (fs2, some err) →
        handler env fs g r = (.httpError "Internal error" 500, fs2, g)) ∧
    (∀ lstat1, handler { env with lstat := lstat1 } fs g r = handler env fs g r) := by
  refine ⟨?_, ?_, ?_, ?_⟩
  · intro fs1 fs2 hmk hw
    refine ⟨?_, hlaw _ _ _ _ hw⟩
    rw [handler_save env fs g r hpost hmethod]
    simp [hmk, hw]
  · intro fs1 err hmk
    rw [handler_save env fs g r hpost hmethod]
    simp [hmk]
  · intro fs1 fs2 err hmk hw
    rw [handler_save env fs g r hpost hmethod]
    simp [hmk, hw]
  · intro lstat1
    rw [handler_save env fs g r hpost hmethod,
      handler_save { env with lstat := lstat1 } fs g r hpost hmethod]

theorem handler_save_mode_witness :
    handler memEnv fsEmptyRoot g0 reqSave
      = (.wrote successToken,
          [("_doc/notes/hello.md", .file contentUpdated 0), ("_doc/notes", .dir), ("_doc", .dir)],
          g0) ∧
    ((∀ fs1 fs2, memEnv.mkdirAll fsEmptyRoot
          (memEnv.pathDir (memEnv.pathJoin "_doc" reqSave.urlPath ++ ".md")) = (fs1, none) →
        memEnv.writeFile fs1 (memEnv.pathJoin "_doc" reqSave.urlPath ++ ".md")
          (formValue reqSave.form "content") = (fs2, none) →
        handler memEnv fsEmptyRoot g0 reqSave = (.wrote successToken, fs2, g0) ∧
        memEnv.readFile fs2 (memEnv.pathJoin "_doc" reqSave.urlPath ++ ".md")
          = .ok (formValue reqSave.form "content")) ∧
    (∀ fs1 err, memEnv.mkdirAll fsEmptyRoot
          (memEnv.pathDir (memEnv.pathJoin "_doc" reqSave.urlPath ++ ".md")) = (fs1, some err) →
        handler memEnv fsEmptyRoot g0 reqSave = (.httpError "Internal error" 500, fs1, g0)) ∧
    (∀ fs1 fs2 err, memEnv.mkdirAll fsEmptyRoot
          (memEnv.pathDir (memEnv.pathJoin "_doc" reqSave.urlPath ++ ".md")) = (fs1, none) →
        memEnv.writeFile fs1 (memEnv.pathJoin "_doc" reqSave.urlPath ++ ".md")
          (formValue reqSave.form "content") = (fs2, some err) →
        handler memEnv fsEmptyRoot g0 reqSave = (.httpError "Internal error" 500, fs2, g0)) ∧
    (∀ lstat1, handler { memEnv with lstat := lstat1 } fsEmptyRoot g0 reqSave
        = handler memEnv fsEmptyRoot g0 reqSave)) :=
  ⟨by decide,
   handler_save_mode memEnv fsEmptyRoot g0 reqSave (by decide) (by decide) (by decide)
    memWriteFile_readFile⟩

/-! ## The template cache -/

theorem mem_of_mapGet {α : Type} (m : List (String × α)) (k : String) (v : α)
    (h : mapGet m k = some v) : (k, v) ∈ m := by
  induction m with
  | nil => simp [mapGet] at h
  | cons p rest ih =>
    obtain ⟨k1, v1⟩ := p
    by_cases hk : k1 = k
    · simp [mapGet, hk] at h
      simp [hk, h]
    · simp [mapGet, hk] at h
      exact List.mem_cons_of_mem _ (ih h)

/-- A successful call of `getTemplate` leaves the returned handle in the cache
under `name`, allocated below the next fresh address. -/
theorem getTemplate_ok_cached {σ : Type} (env : Env σ) (fs : σ) (g g1 : Globals)
    (name : String) (h1 : Template) (hwf : g.handlesAllocated = true)
    (hcall : getTemplate env fs g name = (.ok h1, g1)) :
    ∃ mtime1 recorded, getMtime env fs ("_template/" ++ name ++ ".html") = .ok mtime1 ∧
      mtime1 ≤ recorded ∧ (g1 ≠ g → recorded = mtime1) ∧
      mapGet g1.templateMap name = some { template := h1, mtime := recorded } ∧
      h1.addr < g1.allocated := by
  have hcompile : ∀ mtime,
      compileTemplate env fs g name ("_template/" ++ name ++ ".html") mtime = (.ok h1, g1) →
      mapGet g1.templateMap name = some { template := h1, mtime := mtime } ∧
        h1.addr < g1.allocated := by
    intro mtime hc
    unfold compileTemplate at hc
    cases hp : env.parseFiles fs ("_template/" ++ name ++ ".html") with
    | error e => simp [hp] at hc
    | ok code =>
      simp only [hp, Prod.mk.injEq, Except.ok.injEq] at hc
      obtain ⟨hh, hg⟩ := hc
      subst hh
      subst hg
      exact ⟨mapGet_mapSet_self _ _ _, Nat.lt_succ_self _⟩
  unfold getTemplate at hcall
  cases hm : getMtime env fs ("_template/" ++ name ++ ".html") with
  | error e => simp [hm] at hcall
  | ok mtime =>
    cases hv : mapGet g.templateMap name with
    | none =>
      simp only [hm, hv] at hcall
      obtain ⟨hentry, haddr⟩ := hcompile mtime hcall
      exact ⟨mtime, mtime, rfl, le_refl _, fun _ => rfl, hentry, haddr⟩
    | some val =>
      simp only [hm, hv] at hcall
      by_cases hlt : val.mtime < mtime
      · simp only [hlt, not_true_eq_false, if_false] at hcall
        obtain ⟨hentry, haddr⟩ := hcompile mtime hcall
        exact ⟨mtime, mtime, rfl, le_refl _, fun _ => rfl, hentry, haddr⟩
      · simp only [hlt, not_false_eq_true, if_true, Prod.mk.injEq, Except.ok.injEq] at hcall
        obtain ⟨hh, hg⟩ := hcall
        subst hh
        subst hg
        refine ⟨mtime, val.mtime, rfl, Nat.le_of_not_lt hlt, fun hne => absurd rfl hne, hv, ?_⟩
        have hmem := mem_of_mapGet _ _ _ hv
        have hall := List.all_eq_true.mp hwf _ hmem
        simpa using hall

/-- Every call of `getTemplate` keeps the cached handles below the next fresh
address. -/
theorem getTemplate_handlesAllocated {σ : Type} (env : Env σ) (fs : σ) (g : Globals)
    (name : String) (hwf : g.handlesAllocated = true) :
    (getTemplate env fs g name).2.handlesAllocated = true := by
  have hcompile : ∀ mtime,
      (compileTemplate env fs g name ("_template/" ++ name ++ ".html") mtime).2.handlesAllocated
        = true := by
    intro mtime
    unfold compileTemplate
    cases hp : env.parseFiles fs ("_template/" ++ name ++ ".html") with
    | error e => simpa using hwf
    | ok code =>
      simp only [Globals.handlesAllocated, mapSet, List.all_cons, decide_eq_true_eq,
        Bool.and_eq_true, List.all_eq_true, List.mem_filter]
      refine ⟨Nat.lt_succ_self _, ?_⟩
      intro p hp2
      have := List.all_eq_true.mp hwf p hp2.1
      simp only [decide_eq_true_eq] at this
      omega
  unfold getTemplate
  cases hm : getMtime env fs ("_template/" ++ name ++ ".html") with
  | error e => simpa [hm] using hwf
  | ok mtime =>
    cases hv : mapGet g.templateMap name with
    | none => simpa [hm, hv] using hcompile mtime
    | some val =>
      by_cases hlt : val.mtime < mtime
      · simpa [hm, hv, hlt] using hcompile mtime
      · simpa [hm, hv, hlt] using hwf

/-- A stale entry is refreshed: when the file's modification time is later than
the cached one and the file compiles, `getTemplate` succeeds with a handle at
the next fresh address and stores it with the new time. -/
theorem getTemplate_refresh {σ : Type} (env : Env σ) (fs : σ) (g : Globals) (name : String)
    (val : templateMapValue) (mtime : Time) (code : Bytes)
    (hentry : mapGet g.templateMap name = some val)
    (hm : getMtime env fs ("_template/" ++ name ++ ".html") = .ok mtime)
    (hlt : val.mtime < mtime)
    (hp : env.parseFiles fs ("_template/" ++ name ++ ".html") = .ok code) :
    getTemplate env fs g name =
      (.ok { addr := g.allocated, code := code },
        { g with
            templateMap := mapSet g.templateMap name
              { template := { addr := g.allocated, code := code }, mtime := mtime },
            allocated := g.allocated + 1 }) := by
  simp [getTemplate, compileTemplate, hm, hentry, hlt, hp]

/-- A fresh entry is served from the cache: when the file's modification time
is not later than the cached one, `getTemplate` succeeds with the cached handle
and changes nothing. -/
theorem getTemplate_hit {σ : Type} (env : Env σ) (fs : σ) (g : Globals) (name : String)
    (val : templateMapValue) (mtime : Time)
    (hentry : mapGet g.templateMap name = some val)
    (hm : getMtime env fs ("_template/" ++ name ++ ".html") = .ok mtime)
    (hle : mtime ≤ val.mtime) :
    getTemplate env fs g name = (.ok val.template, g) := by
  simp [getTemplate, hm, hentry, Nat.not_lt.mpr hle]

/-- C7: after a successful call `getTemplate name` that returned `h1`, with the
cache untouched in between, a second successful call on a possibly changed
filesystem reads the file's modification time `mtime2` and compares it with the
time `recorded` that the cache holds under `name` after the first call: the
file's modification time `mtime1` at the first call when that call compiled,
and never earlier than `mtime1`.  It
returns the very handle `h1`, allocating nothing, leaving the package-level
variables as they were and without calling `template.ParseFiles`, exactly when
`mtime2` is not later than `recorded`.  When `mtime2` is later, it compiles the
file into a handle at a fresh address, different from that of `h1`, stores it
with `mtime2` under `name` and returns it. -/
theorem getTemplate_second_call {σ : Type} (env : Env σ) (fs1 fs2 : σ) (g g1 g2 : Globals)
    (name : String) (h1 h2 : Template) (hwf : g.handlesAllocated = true)
    (hfirst : getTemplate env fs1 g name = (.ok h1, g1))
    (hsecond : getTemplate env fs2 g1 name = (.ok h2, g2)) :
    ∃ mtime1 recorded mtime2,
      getMtime env fs1 ("_template/" ++ name ++ ".html") = .ok mtime1 ∧
      mtime1 ≤ recorded ∧ (g1 ≠ g → recorded = mtime1) ∧
      mapGet g1.templateMap name = some { template := h1, mtime := recorded } ∧
      getMtime env fs2 ("_template/" ++ name ++ ".html") = .ok mtime2 ∧
      ((h2 = h1 ∧ g2 = g1) ↔ mtime2 ≤ recorded) ∧
      (mtime2 ≤ recorded →
        ∀ parse, getTemplate { env with parseFiles := parse } fs2 g1 name = (.ok h1, g1)) ∧
      (recorded < mtime2 →
        ∃ code, env.parseFiles fs2 ("_template/" ++ name ++ ".html") = .ok code ∧
          h2 = { addr := g1.allocated, code := code } ∧
          h2.addr ≠ h1.addr ∧
          g2 = { g1 with
                  templateMap := mapSet g1.templateMap name { template := h2, mtime := mtime2 },
                  allocated := g1.allocated + 1 } ∧
          mapGet g2.templateMap name = some { template := h2, mtime := mtime2 }) := by
  obtain ⟨mtime1, recorded, hm1, hle1, hrec, hentry, haddr⟩ :=
    getTemplate_ok_cached env fs1 g g1 name h1 hwf hfirst
  cases hm : getMtime env fs2 ("_template/" ++ name ++ ".html") with
  | error e => simp [getTemplate, hm] at hsecond
  | ok mtime2 =>
    refine ⟨mtime1, recorded, mtime2, hm1, hle1, hrec, hentry, rfl, ?_⟩
    by_cases hlt : recorded < mtime2
    · have hc : compileTemplate env fs2 g1 name ("_template/" ++ name ++ ".html") mtime2
          = (.ok h2, g2) := by
        simpa [getTemplate, hm, hentry, hlt] using hsecond
      unfold compileTemplate at hc
      cases hp : env.parseFiles fs2 ("_template/" ++ name ++ ".html") with
      | error e => simp [hp] at hc
      | ok code =>
        simp only [hp, Prod.mk.injEq, Except.ok.injEq] at hc
        obtain ⟨hh, hg⟩ := hc
        have hne : h2.addr ≠ h1.addr := by
          rw [← hh]
          exact Nat.ne_of_gt haddr
        have halloc : g2.allocated = g1.allocated + 1 := by rw [← hg]
        refine ⟨?_, ?_, ?_⟩
        · constructor
          · rintro ⟨heq, -⟩
            exact absurd (congrArg Template.addr heq) hne
          · intro hle
            exact absurd hlt (Nat.not_lt.mpr hle)
        · intro hle
          exact absurd hlt (Nat.not_lt.mpr hle)
        · intro _
          refine ⟨code, rfl, hh.symm, hne, ?_, ?_⟩
          · rw [← hg, ← hh]
          · rw [← hg]
            simpa [hh] using mapGet_mapSet_self g1.templateMap name
              { template := h2, mtime := mtime2 }
    · have hle : mtime2 ≤ recorded := Nat.le_of_not_lt hlt
      have hhit : ∀ parse,
          getTemplate { env with parseFiles := parse } fs2 g1 name = (.ok h1, g1) := by
        intro parse
        have hm2 : getMtime { env with parseFiles := parse } fs2
            ("_template/" ++ name ++ ".html") = .ok mtime2 := hm
        simp [getTemplate, hm2, hentry, hlt]
      have hres : (Except.ok h2, g2) = ((Except.ok h1 : Except GoError Template), g1) := by
        rw [← hsecond]
        simpa using hhit env.parseFiles
      simp only [Prod.mk.injEq, Except.ok.injEq] at hres
      refine ⟨?_, ?_, ?_⟩
      · exact ⟨fun _ => hle, fun _ => hres⟩
      · exact fun _ => hhit
      · intro h
        exact absurd h hlt

theorem getTemplate_second_call_witness :
    getTemplate memEnv fsHello g1Hello "default"
      = (.ok { addr := 0, code := tmplDefault }, g1Hello) ∧
    ∃ mtime1 recorded mtime2,
      getMtime memEnv fsHello ("_template/" ++ "default" ++ ".html") = .ok mtime1 ∧
      mtime1 ≤ recorded ∧ (g1Hello ≠ g0 → recorded = mtime1) ∧
      mapGet g1Hello.templateMap "default"
        = some { template := { addr := 0, code := tmplDefault }, mtime := recorded } ∧
      getMtime memEnv fsEdited ("_template/" ++ "default" ++ ".html") = .ok mtime2 ∧
      ((({ addr := 1, code := tmplEdited } : Template) = { addr := 0, code := tmplDefault } ∧
          g2Edited = g1Hello) ↔ mtime2 ≤ recorded) ∧
      (mtime2 ≤ recorded →
        ∀ parse, getTemplate { memEnv with parseFiles := parse } fsEdited g1Hello "default"
          = (.ok { addr := 0, code := tmplDefault }, g1Hello)) ∧
      (recorded < mtime2 →
        ∃ code, memEnv.parseFiles fsEdited ("_template/" ++ "default" ++ ".html") = .ok code ∧
          ({ addr := 1, code := tmplEdited } : Template)
            = { addr := g1Hello.allocated, code := code } ∧
          ({ addr := 1, code := tmplEdited } : Template).addr
            ≠ ({ addr := 0, code := tmplDefault } : Template).addr ∧
          g2Edited = { g1Hello with
                  templateMap := mapSet g1Hello.templateMap "default"
                    { template := { addr := 1, code := tmplEdited }, mtime := mtime2 },
                  allocated := g1Hello.allocated + 1 } ∧
          mapGet g2Edited.templateMap "default"
            = some { template := { addr := 1, code := tmplEdited }, mtime := mtime2 }) :=
  ⟨rfl,
   getTemplate_second_call memEnv fsHello fsEdited g0 g1Hello g2Edited "default"
    { addr := 0, code := tmplDefault } { addr := 1, code := tmplEdited } rfl rfl rfl⟩

/-! ## The configuration poller -/

/-- C8: one iteration of the poller replaces `config` and `configModTime` by
the parsed mapping and the file's modification time when `os.Lstat` succeeds,
the modification time is strictly after `configModTime`, the file is read and
`goyaml.Unmarshal` returns no error; the variables change in no other case.
In particular, when the modification time advanced and the file does not
parse, both are left as they were and `checkConfigChange` reports the same
change again on the next iteration. -/
theorem checkConfLoopBody_spec {σ : Type} (env : Env σ) (fs : σ) (filename : String)
    (g : Globals) :
    (∀ info content, env.lstat fs filename = .ok info → g.configModTime < info.modTime →
        env.readFile fs filename = .ok content → (env.yamlUnmarshal content).2 = none →
        checkConfLoopBody env fs filename g
          = { g with config := (env.yamlUnmarshal content).1, configModTime := info.modTime }) ∧
    (checkConfLoopBody env fs filename g ≠ g ↔
      ∃ info content, env.lstat fs filename = .ok info ∧ g.configModTime < info.modTime ∧
        env.readFile fs filename = .ok content ∧ (env.yamlUnmarshal content).2 = none) ∧
    (∀ info, env.lstat fs filename = .ok info → g.configModTime < info.modTime →
        (∀ content, env.readFile fs filename = .ok content →
          (env.yamlUnmarshal content).2 ≠ none) →
        checkConfLoopBody env fs filename g = g ∧
        checkConfigChange env fs filename (checkConfLoopBody env fs filename g).configModTime
          = (true, info.modTime)) := by
  have hgood : ∀ info content, env.lstat fs filename = .ok info →
      g.configModTime < info.modTime →
      env.readFile fs filename = .ok content → (env.yamlUnmarshal content).2 = none →
      checkConfLoopBody env fs filename g
        = { g with config := (env.yamlUnmarshal content).1, configModTime := info.modTime } := by
    intro info content hstat hlt hread hparse
    rcases hy : env.yamlUnmarshal content with ⟨conf, e⟩
    rw [hy] at hparse
    simp only at hparse
    subst hparse
    simp [checkConfLoopBody, checkConfigChange, getMtime, loadConfig, hstat, hlt, hread, hy]
  have hbad : ∀ info, env.lstat fs filename = .ok info → g.configModTime < info.modTime →
      (∀ content, env.readFile fs filename = .ok content →
        (env.yamlUnmarshal content).2 ≠ none) →
      checkConfLoopBody env fs filename g = g := by
    intro info hstat hlt hfail
    cases hread : env.readFile fs filename with
    | error e =>
      simp [checkConfLoopBody, checkConfigChange, getMtime, loadConfig, hstat, hlt, hread]
    | ok content =>
      rcases hy : env.yamlUnmarshal content with ⟨conf, _ | e⟩
      · exact absurd (by rw [hy]) (hfail content hread)
      · simp [checkConfLoopBody, checkConfigChange, getMtime, loadConfig, hstat, hlt, hread, hy]
  refine ⟨hgood, ?_, ?_⟩
  · constructor
    · intro hne
      by_contra hnone
      apply hne
      cases hstat : env.lstat fs filename with
      | error e => simp [checkConfLoopBody, checkConfigChange, getMtime, hstat]
      | ok info =>
        by_cases hlt : g.configModTime < info.modTime
        · apply hbad info hstat hlt
          intro content hread hparse
          exact hnone ⟨info, content, hstat, hlt, hread, hparse⟩
        · simp [checkConfLoopBody, checkConfigChange, getMtime, hstat, hlt]
    · rintro ⟨info, content, hstat, hlt, hread, hparse⟩ heq
      rw [hgood info content hstat hlt hread hparse] at heq
      have := congrArg Globals.configModTime heq
      simp only at this
      exact absurd this (Nat.ne_of_gt hlt)
  · intro info hstat hlt hfail
    have hsame := hbad info hstat hlt hfail
    refine ⟨hsame, ?_⟩
    rw [hsame]
    simp [checkConfigChange, getMtime, hstat, hlt]

/-- The poller on the in-memory filesystem: a valid `config.yaml` rewritten at
time 5 replaces the configuration loaded at time 3; an invalid one leaves both
variables as they were and is detected again. -/
theorem checkConfLoopBody_spec_witness :
    checkConfLoopBody memEnv fsConfGood "config.yaml" gConf
      = { gConf with config := [("a", .str "b")], configModTime := 5 } ∧
    checkConfLoopBody memEnv fsConfBad "config.yaml" gConf = gConf ∧
    checkConfigChange memEnv fsConfBad "config.yaml"
      (checkConfLoopBody memEnv fsConfBad "config.yaml" gConf).configModTime = (true, 5) :=
  ⟨(checkConfLoopBody_spec memEnv fsConfGood "config.yaml" gConf).1
      { isDir := false, modTime := 5 } confGood rfl (by decide) rfl rfl,
   ((checkConfLoopBody_spec memEnv fsConfBad "config.yaml" gConf).2.2
      { isDir := false, modTime := 5 } rfl (by decide)
      (fun content hread => by
        have hc : content = confBad := by
          have h2 : (Except.ok confBad : Except GoError Bytes) = .ok content := hread
          exact (Except.ok.inj h2).symm
        subst hc
        decide))⟩

end Mgdoc
